import Mathlib

/-!
Shallow embedding of `src/pint/pint_convert.py` (the `pint-convert` command-line
unit converter) together with a model, taken from the specification, of the
pieces of the uncertainty machinery that the script delegates to the external
`uncertainties` package (`ufloat`, `correlated_values_norm`).

Conventions of the embedding:
* Python floats are modelled as exact rationals `ℚ`; the numeric literals of the
  source are reproduced verbatim (Lean's scientific literals are exact on `ℚ`).
* An "uncertain value" (`ufloat` / result of `correlated_values_norm`) is a
  nominal value together with a finite map from elementary-error-source
  identifiers to linear coefficients, exactly as in the specification's data
  model; the standard uncertainty is the square root of the sum of squared
  coefficients.
* The unit registry is modelled by the one piece of its state the script
  touches: the map from unit names to converter scales
  (`ureg._units[key].converter.scale`).  A scale is either a plain number or an
  uncertain value (`Magnitude`), mirroring the `isinstance(num, type(ufloat(1, 0)))`
  test of the script.
* Python's in-place mutation is rendered as explicit state passing: `_set`
  returns the updated registry.
-/

namespace PintConvert

/-- An uncertain value: a nominal value plus linear coefficients against
independent, unit-variance elementary error sources (identified by `ℕ` tags).
This models both the spec's `UncertainValue` record and the external
`ufloat`/`AffineScalarFunc` objects the script manipulates. -/
structure UncertainValue where
  nominal : ℚ
  coefficients : List (ℕ × ℚ)
  deriving DecidableEq, Repr

/-- Sum of squared coefficients; the variance of an uncertain value. -/
def variance (v : UncertainValue) : ℚ :=
  (v.coefficients.map fun p => p.2 ^ 2).sum

/-- Standard uncertainty of an uncertain value: `sqrt` of the sum of squared
coefficients (the spec's `standard_uncertainty`, the library's `std_dev`). -/
noncomputable def standard_uncertainty (v : UncertainValue) : ℝ :=
  Real.sqrt ((variance v : ℚ) : ℝ)

/-- Modelled from the spec: `ufloat(nominal, sigma)` (external `uncertainties`
package, re-exported by `pint.compat`) builds an uncertain value with one
dedicated elementary error source carrying coefficient `sigma`
(`value.coefficients = { e_src : sigma }`).  The fresh source identifier is
passed explicitly. -/
def ufloat (nominal sigma : ℚ) (src : ℕ) : UncertainValue :=
  ⟨nominal, [(src, sigma)]⟩

/-- A converter scale / quantity magnitude: either a plain number or an
uncertain value. -/
inductive Magnitude where
  | plain (x : ℚ)
  | ufl (v : UncertainValue)
  deriving DecidableEq, Repr

/-- Whether a magnitude is a plain number (the negative of the script's
`isinstance(num, type(ufloat(1, 0)))` test). -/
def Magnitude.isPlain : Magnitude → Bool
  | .plain _ => true
  | .ufl _ => false

/-- The nominal value of a magnitude (`x` itself for a plain number, `x.n` for
an uncertain value). -/
def Magnitude.nominal : Magnitude → ℚ
  | .plain x => x
  | .ufl v => v.nominal

/-- Variance carried by a magnitude: `0` for a plain number. -/
def magVariance : Magnitude → ℚ
  | .plain _ => 0
  | .ufl v => variance v

/-- Standard uncertainty carried by a magnitude (`sigma`); `0` for a plain
number. -/
noncomputable def magSigma (m : Magnitude) : ℝ :=
  Real.sqrt ((magVariance m : ℚ) : ℝ)

/-- The one piece of `UnitRegistry` state that `pint_convert.py` reads and
writes: the map from unit names to converter scales. -/
structure Registry where
  scales : String → Magnitude

/-- Source lines 23-25: `_set(ureg, key, value)` overwrites
`ureg._units[key].converter.scale` with `value` (via `object.__setattr__`).
In-place mutation is rendered as returning the updated registry. -/
def _set (ureg : Registry) (key : String) (value : Magnitude) : Registry :=
  ⟨fun k => if k = key then value else ureg.scales k⟩

/-- Source lines 45-52: the hard-coded correlation matrix between the six
measured constants, in the order `R_inf, g_e, m_u, m_e, m_p, m_n`.  It is
square by its type. -/
def corr : Fin 6 → Fin 6 → ℚ :=
  ![![1.0, -0.00206, 0.00369, 0.00436, 0.00194, 0.00233],
    ![-0.00206, 1.0, 0.99029, 0.99490, 0.97560, 0.52445],
    ![0.00369, 0.99029, 1.0, 0.99536, 0.98516, 0.52959],
    ![0.00436, 0.99490, 0.99536, 1.0, 0.98058, 0.52714],
    ![0.00194, 0.97560, 0.98516, 0.98058, 1.0, 0.51521],
    ![0.00233, 0.52445, 0.52959, 0.52714, 0.51521, 1.0]]

/-- Modelled from the spec: `uncertainties.correlated_values_norm(defs, corr)`
(external; not in `src/`).  Per spec §4.1, a decomposition `L` of the
correlation matrix with `L·Lᵀ = corr` is computed (Cholesky, or the eigen
fallback) and each result `i` is an uncertain value with
`nominal = defs[i].nominal` and `coefficients = { e_j : sigma_i · L[i][j] }`
for the nonzero `L[i][j]`, against the shared sources `e_0 .. e_5`.  Computing
`L` is the external library's numeric work, so `L` is taken as a parameter
here; the validity condition `L·Lᵀ = corr` and the failure behaviour are
analysed separately by `build_correlated` below. -/
def correlated_values_norm (L : Fin 6 → Fin 6 → ℚ) (defs : Fin 6 → ℚ × ℚ) :
    Fin 6 → UncertainValue :=
  fun i =>
    ⟨(defs i).1,
     ((List.finRange 6).map fun j => (j.val, (defs i).2 * L i j)).filter
       fun p => decide (p.2 ≠ 0)⟩

/-- Source lines 28-110: `_define_constants(ureg, use_corr)`.  Reads the six
measured constants' scales, pairs each with its hard-coded standard
uncertainty, turns them into uncertain values — via `correlated_values_norm`
when `use_corr` is set (the decomposition `L` of the hard-coded matrix `corr`
entering as a parameter, see `correlated_values_norm`) and via independent
`ufloat`s otherwise — writes them back with `_set`, and then sets the five
uncorrelated measured constants.  The final cache rebuild
(`ureg._build_cache()`) touches no converter scale and is omitted. -/
def _define_constants (L : Fin 6 → Fin 6 → ℚ) (ureg : Registry) (use_corr : Bool) :
    Registry :=
  let R_i : ℚ × ℚ := ((ureg.scales "R_inf").nominal, 0.0000000000021e7)
  let g_e : ℚ × ℚ := ((ureg.scales "g_e").nominal, 0.00000000000035)
  let m_u : ℚ × ℚ := ((ureg.scales "m_u").nominal, 0.00000000050e-27)
  let m_e : ℚ × ℚ := ((ureg.scales "m_e").nominal, 0.00000000028e-30)
  let m_p : ℚ × ℚ := ((ureg.scales "m_p").nominal, 0.00000000051e-27)
  let m_n : ℚ × ℚ := ((ureg.scales "m_n").nominal, 0.00000000095e-27)
  let vals : Fin 6 → UncertainValue :=
    if use_corr then
      correlated_values_norm L ![R_i, g_e, m_u, m_e, m_p, m_n]
    else
      ![ufloat R_i.1 R_i.2 0, ufloat g_e.1 g_e.2 1, ufloat m_u.1 m_u.2 2,
        ufloat m_e.1 m_e.2 3, ufloat m_p.1 m_p.2 4, ufloat m_n.1 m_n.2 5]
  let ureg := _set ureg "R_inf" (.ufl (vals 0))
  let ureg := _set ureg "g_e" (.ufl (vals 1))
  let ureg := _set ureg "m_u" (.ufl (vals 2))
  let ureg := _set ureg "m_e" (.ufl (vals 3))
  let ureg := _set ureg "m_p" (.ufl (vals 4))
  let ureg := _set ureg "m_n" (.ufl (vals 5))
  let ureg := _set ureg "gravitational_constant"
    (.ufl (ufloat (ureg.scales "gravitational_constant").nominal 0.00015e-11 6))
  let ureg := _set ureg "d_220"
    (.ufl (ufloat (ureg.scales "d_220").nominal 0.000000032e-10 7))
  let ureg := _set ureg "K_alpha_Cu_d_220"
    (.ufl (ufloat (ureg.scales "K_alpha_Cu_d_220").nominal 0.00000022 8))
  let ureg := _set ureg "K_alpha_Mo_d_220"
    (.ufl (ufloat (ureg.scales "K_alpha_Mo_d_220").nominal 0.00000019 9))
  let ureg := _set ureg "K_alpha_W_d_220"
    (.ufl (ufloat (ureg.scales "K_alpha_W_d_220").nominal 0.000000098 10))
  ureg

/-- The six correlated measured constants, in source order (lines 36-41). -/
def measuredConstantNames : Fin 6 → String :=
  !["R_inf", "g_e", "m_u", "m_e", "m_p", "m_n"]

/-- The hard-coded standard uncertainties of the six correlated measured
constants (lines 36-41). -/
def measuredSigmas : Fin 6 → ℚ :=
  ![0.0000000000021e7, 0.00000000000035, 0.00000000050e-27,
    0.00000000028e-30, 0.00000000051e-27, 0.00000000095e-27]

/-- All eleven unit names whose scales `_define_constants` overwrites, in the
order they are written. -/
def allConstantNames : Fin 11 → String :=
  !["R_inf", "g_e", "m_u", "m_e", "m_p", "m_n", "gravitational_constant",
    "d_220", "K_alpha_Cu_d_220", "K_alpha_Mo_d_220", "K_alpha_W_d_220"]

/-- A registry whose scales are all the plain number `2`, used as a concrete
input for evaluations. -/
def regTwo : Registry := ⟨fun _ => .plain 2⟩

/-- The zero decomposition matrix, a concrete instance of the decomposition
parameter. -/
def zeroL : Fin 6 → Fin 6 → ℚ := fun _ _ => 0

/-! ## The command-line driver `main` (source lines 113-221)

Argument parsing (`argparse`, lines 114-162) and the registry construction and
configuration (lines 164-168) are external; the parsed arguments and the
initial registry enter the model as inputs.  The three operations `main`
borrows from the external quantity system — expression parsing
(`ureg.Quantity(u_from)`), unit conversion (`q.to(u_to)`) and base-unit
conversion (`q.to_base_units()`) — are taken as function parameters; per spec
§6 a conversion consumes the registry's converter scales, so each receives the
registry in force at its call site. -/

/-- The parsed command-line arguments (source lines 114-157): `-s system`,
`-p prec` (significant figures, default 12), `-u prec_unc` (uncertainty
digits, default 2), `-U` (`unc`, consider uncertainties), `-C` (`corr := false`,
ignore correlations), the source quantity `fr` and the optional target unit
`to`. -/
structure Args where
  system : String
  prec : Int
  prec_unc : Int
  unc : Bool
  corr : Bool
  fr : String
  «to» : Option String

/-- A quantity: a magnitude and a unit expression. -/
structure Quantity where
  magnitude : Magnitude
  units : String
  deriving DecidableEq

/-- Source line 179: `q.plus_minus(unc)` attaches a user-supplied uncertainty
to a quantity (a fresh error source, tagged `100`, with coefficient `unc`).
This call is dead code in `main` (`unc` is always `None` when tested). -/
def plus_minus (q : Quantity) (unc : ℚ) : Quantity :=
  ⟨.ufl ⟨q.magnitude.nominal, [(100, unc)]⟩, q.units⟩

/-- Multiplication of a magnitude by a plain factor: first-order propagation
scales the nominal value and every coefficient. -/
def magScale (m : Magnitude) (f : ℚ) : Magnitude :=
  match m with
  | .plain x => .plain (x * f)
  | .ufl v => .ufl ⟨v.nominal * f, v.coefficients.map fun p => (p.1, p.2 * f)⟩

/-- Source lines 187-188: `q *= ureg.Quantity(factor)`.  Dead code in `main`
(`factor` is always `None` when tested); the unit bookkeeping of the external
factor is irrelevant here and the units are left unchanged. -/
def qmul (q : Quantity) (f : ℚ) : Quantity :=
  ⟨magScale q.magnitude f, q.units⟩

/-- Source line 210: `prec_unc = max(0, min(prec_unc, unc))` — the requested
uncertainty digit count clamped to the digits actually extractable. -/
def clampDigits (requested avail : Int) : Int :=
  max 0 (min requested avail)

/-- Source lines 202-208: the number of significant digits extractable from
the formatted uncertainty of `num`.  For a plain (non-`ufloat`) magnitude the
code sets `unc = 0` (line 208).  For an uncertain magnitude the code formats
`num` at value precision `prec` and counts the significant digits the regex
(which skips the plus-minus separator and any leading zeros and dots)
captures from the uncertainty part: `0` exactly when the
uncertainty is zero (the captured group is empty), and otherwise the digits of
the formatted `sigma` — at most the `prec` digits the format can show, which
is how the positive case is modelled here (external `ufloat.__format__`; only
the two zero cases are relied upon by the claims). -/
def extractableUncDigits (num : Magnitude) (prec : Int) : Int :=
  match num with
  | .plain _ => 0
  | .ufl v => if variance v = 0 then 0 else prec

/-- Lines 190-212 condensed: the uncertainty digit count actually used —
clamped extraction when `-U` was given, `0` otherwise. -/
def uncPrecision (uncFlag : Bool) (prec prec_unc : Int) (num : Magnitude) : Int :=
  if uncFlag then clampDigits prec_unc (extractableUncDigits num prec) else 0

/-- Line 218: `nq = nq.magnitude.n * nq.units` replaces the magnitude by its
nominal value; for a plain magnitude the attribute error is suppressed
(`contextlib.suppress`) and the magnitude is left as it is — in both cases the
result is the plain nominal value. -/
def stripUnc : Magnitude → Magnitude
  | .plain x => .plain x
  | .ufl v => .plain v.nominal

/-- The final rendering choice of `main` (lines 214-221): either the
uncertainty format `f".{prec_unc}uS"` applied to the uncertain magnitude, or
the plain format `f".{prec}g"` applied to the nominal value alone (no
uncertainty suffix). -/
inductive Rendered where
  | withUnc (prec_unc : Int) (mag : Magnitude)
  | plainOnly (prec : Int) (mag : Magnitude)
  deriving DecidableEq

/-- Source lines 214-221: render with the uncertainty suffix iff
`prec_unc > 0`, otherwise strip the uncertainty and render the nominal value
at `prec` significant figures. -/
def renderResult (prec prec_unc : Int) (num : Magnitude) : Rendered :=
  if prec_unc > 0 then .withUnc prec_unc num else .plainOnly prec (stripUnc num)

/-- The observable outcome of `main`: the parsed quantity `q`, the converted
quantity `nq`, the rendering of `nq`'s magnitude, and the registry after the
run. -/
structure MainOut where
  q : Quantity
  nq : Quantity
  rendered : Rendered
  regAfter : Registry

/-- Source lines 113-221: `main`.  `qto` models `q.to(u)`, `qtoBase` models
`q.to_base_units()`, `parseQuantity` models `ureg.Quantity(u_from)`; `L` is
the decomposition parameter forwarded to `_define_constants`.  The statement
order of the source is kept: in particular the conversion (lines 181-184) is
evaluated against the registry `ureg` as it stands, and `_define_constants`
runs only afterwards (line 196). -/
def main (qto : Registry → Quantity → String → Quantity)
    (qtoBase : Registry → Quantity → Quantity)
    (parseQuantity : Registry → String → Quantity)
    (L : Fin 6 → Fin 6 → ℚ) (ureg : Registry) (args : Args) : MainOut :=
  let u_from := args.fr
  let u_to := args.«to»
  let unc : Option ℚ := none
  let factor : Option ℚ := none
  let q := parseQuantity ureg u_from
  -- lines 178-179: `if unc: q = q.plus_minus(unc)`
  let q := match unc with
    | some u => plus_minus q u
    | none => q
  -- lines 181-184: `nq = q.to(u_to)` / `nq = q.to_base_units()`
  let nq := match u_to with
    | some u => qto ureg q u
    | none => qtoBase ureg q
  -- lines 186-188: `if factor: q *= ...; nq *= ...`
  let q := match factor with
    | some f => qmul q f
    | none => q
  let nq := match factor with
    | some f => qmul nq f
    | none => nq
  -- lines 190-212: constants are (re)defined only now, after `nq` was computed
  let st :=
    if args.unc then
      (_define_constants L ureg args.corr,
       uncPrecision true args.prec args.prec_unc nq.magnitude)
    else
      (ureg, 0)
  ⟨q, nq, renderResult args.prec st.2 nq.magnitude, st.1⟩

/-- A registry all of whose converter scales are plain numbers (the state of
a freshly constructed `UnitRegistry`, before any `ufloat` is injected). -/
def PlainRegistry (r : Registry) : Prop :=
  ∀ k, (r.scales k).isPlain = true

/-! ## Spec model of `build_correlated` (spec §4.1)

The decomposition work of the correlated build lives in the external
`uncertainties`/`numpy` libraries and is not in `src/`; it is modelled here
from the specification, over `ℝ` where the decomposition naturally lives. -/

/-- Modelled from the spec (§7): the error taxonomy of the correlated build. -/
inductive BuildErr where
  | invalidCorrelationMatrix
  deriving DecidableEq

/-- Modelled from the spec (§3): an uncertain value over `ℝ` with coefficients
against the `n` shared elementary error sources. -/
structure SpecValue (n : ℕ) where
  nominal : ℝ
  coefficients : Fin n → ℝ

/-- Modelled from the spec (§4.1): `build_correlated(defs, corr)` computes a
real decomposition `L` of the correlation matrix with `L·Lᵀ = corr` (Cholesky,
or the eigen fallback when Cholesky fails) and returns, for each `i`, the
uncertain value with `nominal = defs[i].nominal` and coefficients
`e_j ↦ sigma_i · L[i][j]`; it fails with `InvalidCorrelationMatrix` when no
real decomposition exists even after the fallback.  The tolerance of the PSD
check is modelled as exact. -/
noncomputable def build_correlated {n : ℕ} (defs : Fin n → ℝ × ℝ)
    (corrM : Matrix (Fin n) (Fin n) ℝ) : Except BuildErr (Fin n → SpecValue n) :=
  letI := Classical.propDecidable
    (∃ Lr : Matrix (Fin n) (Fin n) ℝ, Lr * Lr.transpose = corrM)
  if h : ∃ Lr : Matrix (Fin n) (Fin n) ℝ, Lr * Lr.transpose = corrM then
    .ok fun i => ⟨(defs i).1, fun j => (defs i).2 * h.choose i j⟩
  else
    .error .invalidCorrelationMatrix

/-! ### Concrete fixtures used by the evaluation (witness) theorems -/

/-- A registry whose scales are all the plain number `1`. -/
def regOne : Registry := ⟨fun _ => .plain 1⟩

/-- A conversion that returns its quantity unchanged (a concrete instance of
the external `q.to(u)` collaborator). -/
def qtoId : Registry → Quantity → String → Quantity := fun _ q _ => q

/-- A base-unit conversion that returns its quantity unchanged. -/
def qtoBaseId : Registry → Quantity → Quantity := fun _ q => q

/-- A parser returning the plain quantity `1 m`. -/
def parseConst : Registry → String → Quantity := fun _ _ => ⟨.plain 1, "m"⟩

/-- Parsed arguments for the invocation `pint-convert -U m_e kg` (uncertainties
enabled, correlations enabled, defaults `-p 12 -u 2`). -/
def argsU : Args := ⟨"SI", 12, 2, true, true, "m_e", some "kg"⟩

/-! ## Helper lemmas -/

theorem variance_nonneg (v : UncertainValue) : 0 ≤ variance v := by
  apply List.sum_nonneg
  intro x hx
  simp only [List.mem_map] at hx
  obtain ⟨p, _, rfl⟩ := hx
  positivity

theorem magVariance_nonneg (m : Magnitude) : 0 ≤ magVariance m := by
  cases m with
  | plain x => exact le_refl 0
  | ufl v => exact variance_nonneg v

theorem magSigma_eq_zero_iff (m : Magnitude) : magSigma m = 0 ↔ magVariance m = 0 := by
  unfold magSigma
  rw [Real.sqrt_eq_zero (by exact_mod_cast magVariance_nonneg m)]
  exact_mod_cast Iff.rfl

theorem extractable_plain (prec : Int) (m : Magnitude) (h : m.isPlain = true) :
    extractableUncDigits m prec = 0 := by
  cases m with
  | plain x => rfl
  | ufl v => simp [Magnitude.isPlain] at h

theorem extractable_zero_variance (prec : Int) (m : Magnitude) (h : magVariance m = 0) :
    extractableUncDigits m prec = 0 := by
  cases m with
  | plain x => rfl
  | ufl v =>
    show (if variance v = 0 then 0 else prec) = 0
    rw [if_pos (show variance v = 0 from h)]

theorem uncPrecision_eq_zero (flag : Bool) (prec pu : Int) (m : Magnitude)
    (h : extractableUncDigits m prec = 0) : uncPrecision flag prec pu m = 0 := by
  cases flag with
  | false => rfl
  | true =>
    show clampDigits pu (extractableUncDigits m prec) = 0
    rw [h]
    unfold clampDigits
    omega

theorem uncPrecision_eq_zero_of_nonpos (flag : Bool) (prec pu : Int) (m : Magnitude)
    (h : pu ≤ 0) : uncPrecision flag prec pu m = 0 := by
  cases flag with
  | false => rfl
  | true =>
    show clampDigits pu (extractableUncDigits m prec) = 0
    unfold clampDigits
    omega

theorem renderResult_zero (prec : Int) (m : Magnitude) :
    renderResult prec 0 m = .plainOnly prec (stripUnc m) := by
  simp [renderResult]

/-! ## Claim theorems -/

set_option maxHeartbeats 4000000 in
/-- Claim C9: the hard-coded correlation matrix of the measured constants
satisfies the correlation-matrix invariants — it is square (by its type
`Fin 6 → Fin 6 → ℚ`), symmetric, has unit diagonal, and every entry lies in
`[-1, 1]`. -/
theorem corr_matrix_invariants :
    ∀ i j : Fin 6,
      corr i j = corr j i ∧ corr i i = 1 ∧ -1 ≤ corr i j ∧ corr i j ≤ 1 := by
  intro i j
  fin_cases i <;> fin_cases j <;> refine ⟨?_, ?_, ?_, ?_⟩ <;> norm_num [corr]

/-- Claim C4: in independent mode (`use_corr = false`) the correlated
decomposition is bypassed entirely — the result does not depend on the
decomposition parameter at all — and each measured constant `i` becomes an
uncertain value with exactly one dedicated elementary error source `e_i`
carrying coefficient `sigma_i`. -/
theorem independent_mode_dedicated_sources :
    ∀ (L1 L2 : Fin 6 → Fin 6 → ℚ) (ureg : Registry),
      _define_constants L1 ureg false = _define_constants L2 ureg false ∧
      ∀ i : Fin 6,
        (_define_constants L1 ureg false).scales (measuredConstantNames i)
          = .ufl ⟨(ureg.scales (measuredConstantNames i)).nominal,
                  [(i.val, measuredSigmas i)]⟩ := by
  intro L1 L2 ureg
  refine ⟨rfl, fun i => ?_⟩
  fin_cases i <;> rfl

/-- Claim C5: building the measured constants, in either mode, preserves every
nominal value — for each of the eleven overwritten constants the nominal of
the new scale equals the scale the registry held before the build. -/
theorem nominal_values_preserved :
    ∀ (L : Fin 6 → Fin 6 → ℚ) (ureg : Registry) (use_corr : Bool) (i : Fin 11),
      ((_define_constants L ureg use_corr).scales (allConstantNames i)).nominal
        = (ureg.scales (allConstantNames i)).nominal := by
  intro L ureg b i
  fin_cases i <;> cases b <;> rfl

/-- Claim C3 (counterexample): performing `_define_constants` does change
previously existing registry state — the scale of `R_inf` after the build
differs from the scale before it, so the operation is not free of effects on
the shared registry. -/
theorem registry_mutated_counterexample :
    (_define_constants zeroL regTwo false).scales "R_inf" ≠ regTwo.scales "R_inf" := by
  have hplain : ((_define_constants zeroL regTwo false).scales "R_inf").isPlain = false := by
    decide
  intro h
  rw [h] at hplain
  exact absurd hplain (by decide)

/-- Claim C3 (amended): `_define_constants` rewrites the registry exactly at
the eleven measured-constant keys; the scale of every other unit is unchanged
(frame property), and the input registry value itself is never altered — the
update is modelled by returning a new registry. -/
theorem define_constants_frame :
    ∀ (L : Fin 6 → Fin 6 → ℚ) (ureg : Registry) (use_corr : Bool) (k : String),
      (∀ i : Fin 11, k ≠ allConstantNames i) →
      (_define_constants L ureg use_corr).scales k = ureg.scales k := by
  intro L ureg b k h
  have h0 : k ≠ "R_inf" := h 0
  have h1 : k ≠ "g_e" := h 1
  have h2 : k ≠ "m_u" := h 2
  have h3 : k ≠ "m_e" := h 3
  have h4 : k ≠ "m_p" := h 4
  have h5 : k ≠ "m_n" := h 5
  have h6 : k ≠ "gravitational_constant" := h 6
  have h7 : k ≠ "d_220" := h 7
  have h8 : k ≠ "K_alpha_Cu_d_220" := h 8
  have h9 : k ≠ "K_alpha_Mo_d_220" := h 9
  have h10 : k ≠ "K_alpha_W_d_220" := h 10
  simp [_define_constants, _set, h0, h1, h2, h3, h4, h5, h6, h7, h8, h9, h10]

/-- Witness for `define_constants_frame`: the scale of `meter` is untouched by
a concrete correlated build. -/
theorem define_constants_frame_witness :
    (∀ i : Fin 11, ("meter" : String) ≠ allConstantNames i) ∧
      (_define_constants zeroL regTwo true).scales "meter" = regTwo.scales "meter" :=
  ⟨by decide, define_constants_frame zeroL regTwo true "meter" (by decide)⟩

/-- Claim C10: the locals `unc` and `factor` of `main` are still `None` when
tested, so `q.plus_minus(unc)` and both factor multiplications are dead code —
the parsed quantity is returned unmodified and the converted quantity is
exactly `q.to(u_to)` (or `q.to_base_units()` when no target unit is given). -/
theorem conversion_unmodified :
    ∀ (qto : Registry → Quantity → String → Quantity)
      (qtoBase : Registry → Quantity → Quantity)
      (parseQuantity : Registry → String → Quantity)
      (L : Fin 6 → Fin 6 → ℚ) (ureg : Registry) (args : Args),
      (main qto qtoBase parseQuantity L ureg args).q = parseQuantity ureg args.fr ∧
      (main qto qtoBase parseQuantity L ureg args).nq =
        (match args.«to» with
          | some u => qto ureg (parseQuantity ureg args.fr) u
          | none => qtoBase ureg (parseQuantity ureg args.fr)) := by
  intro qto qtoBase pq L ureg args
  rcases args with ⟨s, p, pu, u, c, fr, tgt⟩
  cases u <;> cases tgt <;> exact ⟨rfl, rfl⟩

/-- Claim C7: the uncertainty digit count actually used is
`max(0, min(requested, available))` (source line 210) — it lies between `0`
and the available digits, and requesting more digits than are available
silently yields the maximum available; the clamp is a total function and
never fails. -/
theorem clamp_uncertainty_digits :
    ∀ (requested avail : Int), 0 ≤ avail →
      0 ≤ clampDigits requested avail ∧ clampDigits requested avail ≤ avail ∧
        (avail ≤ requested → clampDigits requested avail = avail) := by
  intro r a ha
  refine ⟨le_max_left 0 _, max_le ha (min_le_right r a), fun h => ?_⟩
  show max 0 (min r a) = a
  rw [min_eq_right h, max_eq_right ha]

/-- Witness for `clamp_uncertainty_digits`: requesting `5` digits when `2` are
available yields `2`. -/
theorem clamp_uncertainty_digits_witness :
    (0 : Int) ≤ 2 ∧
      (0 ≤ clampDigits 5 2 ∧ clampDigits 5 2 ≤ 2 ∧ ((2 : Int) ≤ 5 → clampDigits 5 2 = 2)) :=
  ⟨by decide, clamp_uncertainty_digits 5 2 (by decide)⟩

/-- Claim C6: when the requested uncertainty digit count is `≤ 0`, or the
uncertainty (`sigma`) of the rendered magnitude is zero, the rendering shows
only the nominal value at `prec` significant figures, with no uncertainty
suffix. -/
theorem zero_uncertainty_renders_plain :
    ∀ (uncFlag : Bool) (prec prec_unc : Int) (num : Magnitude),
      prec_unc ≤ 0 ∨ magSigma num = 0 →
      renderResult prec (uncPrecision uncFlag prec prec_unc num) num
        = .plainOnly prec (stripUnc num) := by
  intro flag prec pu num h
  have hz : uncPrecision flag prec pu num = 0 := by
    rcases h with h | h
    · exact uncPrecision_eq_zero_of_nonpos flag prec pu num h
    · exact uncPrecision_eq_zero flag prec pu num
        (extractable_zero_variance prec num ((magSigma_eq_zero_iff num).mp h))
  rw [hz]
  exact renderResult_zero prec num

/-- Witness for `zero_uncertainty_renders_plain`: with requested uncertainty
digits `0`, an uncertain magnitude is rendered plain. -/
theorem zero_uncertainty_renders_plain_witness :
    ((0 : Int) ≤ 0 ∨ magSigma (.ufl ⟨5, [(0, 3)]⟩) = 0) ∧
      renderResult 12 (uncPrecision true 12 0 (.ufl ⟨5, [(0, 3)]⟩)) (.ufl ⟨5, [(0, 3)]⟩)
        = .plainOnly 12 (stripUnc (.ufl ⟨5, [(0, 3)]⟩)) :=
  ⟨Or.inl (by decide),
   zero_uncertainty_renders_plain true 12 0 (.ufl ⟨5, [(0, 3)]⟩) (Or.inl (by decide))⟩

/-- Claim C1 (divergence): in every `-U` run whose initial registry and parsed
quantity are plain — the state of every real invocation, since
`_define_constants` is the only injector of uncertain values — the converted
magnitude is plain and the rendering carries no uncertainty.  `main` evaluates
the conversion (source lines 181-184) against the registry as it stands and
installs the measured-constant definitions only afterwards (line 196), so the
conversion result that is formatted is a plain float, not an uncertain
value. -/
theorem unc_flag_still_renders_plain :
    ∀ (qto : Registry → Quantity → String → Quantity)
      (qtoBase : Registry → Quantity → Quantity)
      (parseQuantity : Registry → String → Quantity)
      (L : Fin 6 → Fin 6 → ℚ) (ureg : Registry) (args : Args),
      (∀ r q u, PlainRegistry r → q.magnitude.isPlain = true →
        ((qto r q u).magnitude).isPlain = true) →
      (∀ r q, PlainRegistry r → q.magnitude.isPlain = true →
        ((qtoBase r q).magnitude).isPlain = true) →
      (∀ r s, PlainRegistry r → ((parseQuantity r s).magnitude).isPlain = true) →
      PlainRegistry ureg →
      args.unc = true →
      ((main qto qtoBase parseQuantity L ureg args).nq.magnitude).isPlain = true ∧
      (main qto qtoBase parseQuantity L ureg args).rendered
        = .plainOnly args.prec
            (stripUnc ((main qto qtoBase parseQuantity L ureg args).nq.magnitude)) := by
  intro qto qtoBase pq L ureg args hto htb hpq hreg hU
  rcases args with ⟨s, p, pu, u, c, fr, tgt⟩
  cases u with
  | false => exact Bool.noConfusion hU
  | true =>
    have hq : ((pq ureg fr).magnitude).isPlain = true := hpq ureg fr hreg
    cases tgt with
    | none =>
      have hnq : ((qtoBase ureg (pq ureg fr)).magnitude).isPlain = true :=
        htb ureg (pq ureg fr) hreg hq
      refine ⟨hnq, ?_⟩
      show renderResult p (uncPrecision true p pu ((qtoBase ureg (pq ureg fr)).magnitude))
            ((qtoBase ureg (pq ureg fr)).magnitude)
          = .plainOnly p (stripUnc ((qtoBase ureg (pq ureg fr)).magnitude))
      rw [uncPrecision_eq_zero true p pu _ (extractable_plain p _ hnq)]
      exact renderResult_zero p _
    | some ut =>
      have hnq : ((qto ureg (pq ureg fr) ut).magnitude).isPlain = true :=
        hto ureg (pq ureg fr) ut hreg hq
      refine ⟨hnq, ?_⟩
      show renderResult p (uncPrecision true p pu ((qto ureg (pq ureg fr) ut).magnitude))
            ((qto ureg (pq ureg fr) ut).magnitude)
          = .plainOnly p (stripUnc ((qto ureg (pq ureg fr) ut).magnitude))
      rw [uncPrecision_eq_zero true p pu _ (extractable_plain p _ hnq)]
      exact renderResult_zero p _

/-- Witness for `unc_flag_still_renders_plain`: a concrete `-U` invocation
whose rendering has no uncertainty suffix. -/
theorem unc_flag_still_renders_plain_witness :
    argsU.unc = true ∧
      ((main qtoId qtoBaseId parseConst zeroL regOne argsU).nq.magnitude).isPlain = true ∧
      (main qtoId qtoBaseId parseConst zeroL regOne argsU).rendered
        = .plainOnly argsU.prec
            (stripUnc ((main qtoId qtoBaseId parseConst zeroL regOne argsU).nq.magnitude)) :=
  ⟨rfl,
   unc_flag_still_renders_plain qtoId qtoBaseId parseConst zeroL regOne argsU
     (fun _ _ _ _ h => h) (fun _ _ _ h => h) (fun _ _ _ => rfl) (fun _ => rfl) rfl⟩

/-- Claim C8: an uncertain value built by the independent-mode construction
(`ufloat nominal sigma`, one dedicated source with coefficient `sigma`) has
standard uncertainty equal to `sigma`, in particular within `1e-9` relative
tolerance. -/
theorem independent_sigma_preserved :
    ∀ (nominal sigma : ℚ) (src : ℕ), 0 ≤ sigma →
      |standard_uncertainty (ufloat nominal sigma src) - (sigma : ℝ)|
        ≤ (1 / 10 ^ 9 : ℝ) * (sigma : ℝ) := by
  intro n σ src hσ
  have hval : standard_uncertainty (ufloat n σ src) = (σ : ℝ) := by
    unfold standard_uncertainty variance ufloat
    simp only [List.map_cons, List.map_nil, List.sum_cons, List.sum_nil, add_zero]
    push_cast
    rw [Real.sqrt_sq (by exact_mod_cast hσ)]
  rw [hval, sub_self, abs_zero]
  positivity

/-- Witness for `independent_sigma_preserved`: `nominal = 3`, `sigma = 1`. -/
theorem independent_sigma_preserved_witness :
    (0 : ℚ) ≤ 1 ∧
      |standard_uncertainty (ufloat 3 1 0) - ((1 : ℚ) : ℝ)|
        ≤ (1 / 10 ^ 9 : ℝ) * ((1 : ℚ) : ℝ) :=
  ⟨zero_le_one, independent_sigma_preserved 3 1 0 zero_le_one⟩

/-- Claim C2: the correlated build fails with `InvalidCorrelationMatrix`
exactly when the supplied correlation matrix has no real decomposition
`L·Lᵀ = corr` — that is, exactly when it is not positive semi-definite; a
non-PSD matrix is never silently tolerated. -/
theorem build_fails_iff_not_psd :
    ∀ (n : ℕ) (defs : Fin n → ℝ × ℝ) (corrM : Matrix (Fin n) (Fin n) ℝ),
      build_correlated defs corrM = .error .invalidCorrelationMatrix
        ↔ ¬ corrM.PosSemidef := by
  intro n defs corrM
  have key : (∃ Lr : Matrix (Fin n) (Fin n) ℝ, Lr * Lr.transpose = corrM)
      ↔ corrM.PosSemidef := by
    constructor
    · rintro ⟨Lr, rfl⟩
      have hps := Matrix.posSemidef_self_mul_conjTranspose Lr
      rwa [Matrix.conjTranspose_eq_transpose_of_trivial] at hps
    · intro hpsd
      obtain ⟨B, hB⟩ := Matrix.posSemidef_iff_eq_transpose_mul_self.mp hpsd
      refine ⟨B.transpose, ?_⟩
      rw [Matrix.transpose_transpose, hB, Matrix.conjTranspose_eq_transpose_of_trivial]
  unfold build_correlated
  by_cases hex : ∃ Lr : Matrix (Fin n) (Fin n) ℝ, Lr * Lr.transpose = corrM
  · rw [dif_pos hex]
    simp only [reduceCtorEq, false_iff, not_not]
    exact key.mp hex
  · rw [dif_neg hex]
    simp only [true_iff]
    exact fun hpsd => hex (key.mpr hpsd)

end PintConvert
